import Mathlib

/-!
Verification of the mcp-pangolin server core (swagger extraction, tool
projection, dispatch) against its natural-language specification.

The definitions below are a shallow embedding of the Rust sources
`src/server/src/{types,swagger,service,pangolin_client}.rs`.  Rust map types
are embedded as association lists:

* `indexmap::IndexMap` iterates in insertion order — embedded as a list in
  declared order;
* `std::collections::HashMap` iterates in an unspecified order — embedded as a
  list whose order stands for one arbitrary iteration order (no theorem below
  depends on it);
* `serde_json::Map::insert` replaces the value when the key is present —
  embedded by `insertMap`.

External collaborators (the reqwest transport, serde_json's text parser) are
passed in as explicit parameters, mirroring the data they hand back to the
embedded code.
-/

namespace McpPangolin

/-- Model of `serde_json::Value`.  Numbers are modelled as `Int`: no claim
here depends on floating-point behaviour, numbers are only carried through or
rendered. -/
inductive Json where
  | null : Json
  | bool (b : Bool) : Json
  | num (n : Int) : Json
  | str (s : String) : Json
  | arr (xs : List Json) : Json
  | obj (fields : List (String × Json)) : Json

/-- Model of `serde_json::Value::get(key)`: key lookup on objects, `None` on
every other variant. -/
def Json.get (v : Json) (key : String) : Option Json :=
  match v with
  | .obj fields => fields.lookup key
  | _ => none

/-- Model of `Value::as_str()`. -/
def Json.asStr (v : Json) : Option String :=
  match v with
  | .str s => some s
  | _ => none

/-- One hex digit, for JSON string escaping of control characters. -/
def hexDigit (n : Nat) : Char :=
  if n < 10 then Char.ofNat (48 + n) else Char.ofNat (87 + n)

/-- JSON string escaping as serde_json performs it (quote, backslash and
control characters). -/
def jsonEscape (s : String) : String :=
  s.data.foldl (fun acc c =>
    if c = '"' then acc ++ "\\\""
    else if c = '\\' then acc ++ "\\\\"
    else if c = '\n' then acc ++ "\\n"
    else if c = '\r' then acc ++ "\\r"
    else if c = '\t' then acc ++ "\\t"
    else if c.toNat < 32 then
      acc ++ "\\u00" ++ String.singleton (hexDigit (c.toNat / 16))
        ++ String.singleton (hexDigit (c.toNat % 16))
    else acc ++ String.singleton c) ""

/-- Quoted JSON string literal. -/
def jsonQuote (s : String) : String := "\"" ++ jsonEscape s ++ "\""

mutual

/-- Compact serialization, modelling `serde_json::Value`'s `Display`
(`to_string`). -/
def jsonCompact : Json → String
  | .null => "null"
  | .bool true => "true"
  | .bool false => "false"
  | .num n => toString n
  | .str s => jsonQuote s
  | .arr xs => "[" ++ jsonCompactArr xs ++ "]"
  | .obj fs => "\x7b" ++ jsonCompactObj fs ++ "\x7d"

/-- Comma-separated compact rendering of array elements. -/
def jsonCompactArr : List Json → String
  | [] => ""
  | [x] => jsonCompact x
  | x :: y :: rest => jsonCompact x ++ "," ++ jsonCompactArr (y :: rest)

/-- Comma-separated compact rendering of object fields. -/
def jsonCompactObj : List (String × Json) → String
  | [] => ""
  | [(k, v)] => jsonQuote k ++ ":" ++ jsonCompact v
  | (k, v) :: y :: rest => jsonQuote k ++ ":" ++ jsonCompact v ++ "," ++ jsonCompactObj (y :: rest)

end

mutual

/-- Pretty serialization with two-space indentation, modelling
`serde_json::to_string_pretty` (no claim below inspects this output). -/
def jsonPrettyAux (ind : String) : Json → String
  | .arr [] => "[]"
  | .arr (x :: xs) => "[\n" ++ jsonPrettyArr (ind ++ "  ") (x :: xs) ++ "\n" ++ ind ++ "]"
  | .obj [] => "\x7b\x7d"
  | .obj (f :: fs) => "\x7b\n" ++ jsonPrettyObj (ind ++ "  ") (f :: fs) ++ "\n" ++ ind ++ "\x7d"
  | v => jsonCompact v

/-- Pretty rendering of array elements, one per line. -/
def jsonPrettyArr (ind : String) : List Json → String
  | [] => ""
  | [x] => ind ++ jsonPrettyAux ind x
  | x :: y :: rest => ind ++ jsonPrettyAux ind x ++ ",\n" ++ jsonPrettyArr ind (y :: rest)

/-- Pretty rendering of object fields, one per line. -/
def jsonPrettyObj (ind : String) : List (String × Json) → String
  | [] => ""
  | [(k, v)] => ind ++ jsonQuote k ++ ": " ++ jsonPrettyAux ind v
  | (k, v) :: y :: rest =>
      ind ++ jsonQuote k ++ ": " ++ jsonPrettyAux ind v ++ ",\n" ++ jsonPrettyObj ind (y :: rest)

end

/-- `serde_json::to_string_pretty(&v)` as used in `service.rs`. -/
def jsonPretty (v : Json) : String := jsonPrettyAux "" v

/-- `HttpMethod` from `types.rs`. -/
inductive HttpMethod where
  | Get : HttpMethod
  | Post : HttpMethod
  | Put : HttpMethod
  | Delete : HttpMethod
  | Patch : HttpMethod
deriving DecidableEq

/-- `HttpMethod::is_write_operation` from `types.rs`. -/
def HttpMethod.is_write_operation : HttpMethod → Bool
  | .Post => true
  | .Put => true
  | .Delete => true
  | .Patch => true
  | .Get => false

/-- `HttpMethod::as_str` from `types.rs`. -/
def HttpMethod.as_str : HttpMethod → String
  | .Get => "GET"
  | .Post => "POST"
  | .Put => "PUT"
  | .Delete => "DELETE"
  | .Patch => "PATCH"

/-- `ParameterType` from `types.rs` (Rust variants `String`/`Integer`/
`Number`/`Boolean`/`Array`/`Object`, lower-cased here to avoid clashing with
the Lean type names). -/
inductive ParameterType where
  | string : ParameterType
  | integer : ParameterType
  | number : ParameterType
  | boolean : ParameterType
  | array : ParameterType
  | object : ParameterType
deriving DecidableEq

/-- `ParameterType::to_json_schema_type` from `types.rs`. -/
def ParameterType.to_json_schema_type (t : ParameterType) : String :=
  match t with
  | ParameterType.string => "string"
  | ParameterType.integer => "integer"
  | ParameterType.number => "number"
  | ParameterType.boolean => "boolean"
  | ParameterType.array => "array"
  | ParameterType.object => "object"

/-- `ParameterType::from_openapi_type` from `types.rs`. -/
def ParameterType.from_openapi_type (t : String) : ParameterType :=
  if t = "integer" then .integer
  else if t = "number" then .number
  else if t = "boolean" then .boolean
  else if t = "array" then .array
  else if t = "object" then .object
  else .string

/-! ## Name generation (`swagger.rs`, `generate_tool_name`) -/

/-- The `clean_path` step of `generate_tool_name`: `trim_start_matches('/')`
removes every leading `/`, then `replace('/', "_")` and `replace('-', "_")`
rewrite each occurrence (single-character replacement, hence a map). -/
def cleanPath (path : String) : List Char :=
  (path.data.dropWhile (fun c => c = '/')).map
    (fun c => if c = '/' then '_' else if c = '-' then '_' else c)

/-- One `replace_all` pass of the regex `\x7b([^\x7d]+)\x7d` with replacement
`by_$1`: scanning left to right, a match at `\x7b` takes the (non-empty,
greedy) run of non-`\x7d` characters up to the next `\x7d`.  The fuel is the
length of the input; each step consumes at least one character, so fuel never
runs out on the initial call. -/
def replacePlaceholdersAux : Nat → List Char → List Char
  | 0, l => l
  | _ + 1, [] => []
  | fuel + 1, c :: rest =>
    if c = '\x7b' then
      let inner := rest.takeWhile (fun x => x ≠ '\x7d')
      match rest.dropWhile (fun x => x ≠ '\x7d') with
      | [] => c :: replacePlaceholdersAux fuel rest
      | _ :: tail =>
        if inner.isEmpty then c :: replacePlaceholdersAux fuel rest
        else 'b' :: 'y' :: '_' :: (inner ++ replacePlaceholdersAux fuel tail)
    else c :: replacePlaceholdersAux fuel rest

/-- `replace_all` of `\x7b([^\x7d]+)\x7d` by `by_$1` over a character list. -/
def replacePlaceholders (l : List Char) : List Char :=
  replacePlaceholdersAux l.length l

/-- The method prefixes of `generate_tool_name`. -/
def method_pfx : HttpMethod → String
  | .Get => ""
  | .Post => "update_"
  | .Put => "create_"
  | .Delete => "delete_"
  | .Patch => "patch_"

/-- `generate_tool_name` from `swagger.rs`. -/
def generate_tool_name (path : String) (method : HttpMethod) : String :=
  let name_with_params := replacePlaceholders (cleanPath path)
  if name_with_params.isEmpty then method_pfx method ++ "health_check"
  else method_pfx method ++ String.mk name_with_params

/-! ## Document model (`swagger.rs`) -/

/-- `SchemaProperty` from `swagger.rs`.  `min_length`/`max_length` are `i64`
in the source; `minimum`/`maximum` are `f64`, modelled as `Int` — they are
only copied through by the embedded code, never computed with. -/
inductive SchemaProperty where
  | mk
      (schema_type : Option String)
      (description : Option String)
      (format : Option String)
      (default : Option Json)
      (enum_values : Option (List String))
      (nullable : Option Bool)
      (min_length : Option Int)
      (max_length : Option Int)
      (minimum : Option Int)
      (maximum : Option Int)
      (exclusive_minimum : Option Bool)
      (pattern : Option String)
      (items : Option SchemaProperty)
      (properties : Option (List (String × SchemaProperty)))
      (required : Option (List String))
      (any_of : Option (List SchemaProperty)) : SchemaProperty

/-- `Schema` from `swagger.rs`.  `properties` is a `HashMap` in the source;
the list order stands for one arbitrary iteration order. -/
inductive Schema where
  | mk
      (schema_type : Option String)
      (properties : Option (List (String × SchemaProperty)))
      (required : Option (List String))
      (additional_properties : Option Bool)
      (items : Option SchemaProperty)
      (all_of : Option (List Schema))
      (any_of : Option (List Schema))
      (one_of : Option (List Schema)) : Schema

/-- Field accessor for `Schema.properties`. -/
def Schema.properties : Schema → Option (List (String × SchemaProperty))
  | .mk _ p _ _ _ _ _ _ => p

/-- Field accessor for `Schema.required`. -/
def Schema.required : Schema → Option (List String)
  | .mk _ _ r _ _ _ _ _ => r

/-- Field accessor for `Schema.all_of`. -/
def Schema.all_of : Schema → Option (List Schema)
  | .mk _ _ _ _ _ a _ _ => a

/-- Field accessor for `Schema.any_of`. -/
def Schema.any_of : Schema → Option (List Schema)
  | .mk _ _ _ _ _ _ a _ => a

/-- `MediaType` from `swagger.rs`. -/
structure MediaType where
  schema : Option Schema

/-- `RequestBody` from `swagger.rs`.  `content` is a `HashMap`; the list
order stands for one arbitrary iteration order. -/
structure RequestBody where
  required : Bool
  content : List (String × MediaType)

/-- `ParameterSchema` from `swagger.rs`. -/
structure ParameterSchema where
  schema_type : Option String
  format : Option String
  default : Option Json
  enum_values : Option (List String)

/-- `Parameter` from `swagger.rs` (`location` is the `in` field). -/
structure Parameter where
  name : String
  location : String
  required : Bool
  description : Option String
  schema : Option ParameterSchema

/-- `Operation` from `swagger.rs`.  The `security` and `responses` fields are
parsed but never read by the embedded functions and are omitted. -/
structure Operation where
  description : Option String
  summary : Option String
  tags : List String
  parameters : List Parameter
  request_body : Option RequestBody

/-- `PathItem` from `swagger.rs`. -/
structure PathItem where
  get : Option Operation
  post : Option Operation
  put : Option Operation
  delete : Option Operation
  patch : Option Operation

/-- `SwaggerInfo` from `swagger.rs`. -/
structure SwaggerInfo where
  title : String
  version : String
  description : Option String

/-- `SwaggerServer` from `swagger.rs`. -/
structure SwaggerServer where
  url : String
  description : Option String

/-- `SwaggerSpec` from `swagger.rs`.  `paths` is an `IndexMap`, iterated in
insertion (declared) order — a list of pairs.  The `components` field is
parsed but never read by the embedded functions and is omitted. -/
structure SwaggerSpec where
  openapi : String
  info : SwaggerInfo
  servers : List SwaggerServer
  paths : List (String × PathItem)

/-- `SwaggerDocument` from `swagger.rs`: envelope with a `swaggerDoc` field. -/
structure SwaggerDocument where
  swagger_doc : SwaggerSpec
  custom_options : Option Json

/-! ## Derived endpoint model (`types.rs`) -/

/-- `EndpointParameter` from `types.rs`. -/
structure EndpointParameter where
  name : String
  param_type : ParameterType
  required : Bool
  description : Option String
  default_value : Option Json

/-- `PropertySchema` from `types.rs` (recursive through `items`). -/
inductive PropertySchema where
  | mk
      (name : String)
      (param_type : ParameterType)
      (description : Option String)
      (default_value : Option Json)
      (enum_values : Option (List String))
      (nullable : Bool)
      (min_length : Option Int)
      (max_length : Option Int)
      (minimum : Option Int)
      (maximum : Option Int)
      (pattern : Option String)
      (items : Option PropertySchema) : PropertySchema

/-- Field accessor for `PropertySchema.param_type`. -/
def PropertySchema.param_type : PropertySchema → ParameterType
  | .mk _ t _ _ _ _ _ _ _ _ _ _ => t

/-- Field accessor for `PropertySchema.description`. -/
def PropertySchema.description : PropertySchema → Option String
  | .mk _ _ d _ _ _ _ _ _ _ _ _ => d

/-- Field accessor for `PropertySchema.default_value`. -/
def PropertySchema.default_value : PropertySchema → Option Json
  | .mk _ _ _ d _ _ _ _ _ _ _ _ => d

/-- Field accessor for `PropertySchema.enum_values`. -/
def PropertySchema.enum_values : PropertySchema → Option (List String)
  | .mk _ _ _ _ e _ _ _ _ _ _ _ => e

/-- `RequestBodySchema` from `types.rs`.  `properties` is a `HashMap`; the
list order stands for one arbitrary iteration order (values replaced on key
collision, see `insertMap`). -/
structure RequestBodySchema where
  content_type : String
  properties : List (String × PropertySchema)
  required : List String

/-- `PangolinEndpoint` from `types.rs`. -/
structure PangolinEndpoint where
  name : String
  method : HttpMethod
  path : String
  description : String
  tags : List String
  path_params : List EndpointParameter
  query_params : List EndpointParameter
  request_body : Option RequestBodySchema

/-! ## Extraction engine (`swagger.rs`) -/

/-- Map-insert on an association list: replaces the value in place when the
key is already bound, appends otherwise.  Models `HashMap::insert` and
`serde_json::Map::insert` (the value is replaced; key order is irrelevant to
every theorem below). -/
def insertMap {α : Type} (m : List (String × α)) (k : String) (v : α) : List (String × α) :=
  if m.any (fun kv => kv.1 = k) then
    m.map (fun kv => if kv.1 = k then (k, v) else kv)
  else m ++ [(k, v)]

/-- `convert_parameter` from `swagger.rs`. -/
def convert_parameter (param : Parameter) : EndpointParameter :=
  { name := param.name
    param_type :=
      ((param.schema.bind (fun s => s.schema_type)).map ParameterType.from_openapi_type).getD .string
    required := param.required
    description := param.description
    default_value := param.schema.bind (fun s => s.default) }

/-- `convert_schema_property` from `swagger.rs`: recursive conversion,
`items` converted with the placeholder name `"item"`. -/
def convert_schema_property (name : String) : SchemaProperty → PropertySchema
  | .mk st desc _fmt dflt enums nullable minL maxL minim maxim _exclMin pat items _props _req _anyOf =>
      PropertySchema.mk name
        ((st.map ParameterType.from_openapi_type).getD .string)
        desc dflt enums (nullable.getD false) minL maxL minim maxim pat
        (match items with
         | some i => some (convert_schema_property "item" i)
         | none => none)

/-- Merge one schema's `properties` map into the accumulator, converting each
property (the body of the three merge loops in `extract_request_body_schema`). -/
def mergeProps (acc : List (String × PropertySchema))
    (props : Option (List (String × SchemaProperty))) : List (String × PropertySchema) :=
  match props with
  | some ps => ps.foldl (fun m kv => insertMap m kv.1 (convert_schema_property kv.1 kv.2)) acc
  | none => acc

/-- `extract_request_body_schema` from `swagger.rs`: pick the
`application/json` media type (else the first declared one), then merge
direct properties/required, every `allOf` sub-schema in order, and the first
`anyOf` entry; `required` lists are concatenated with `extend`, with no
duplicate suppression. -/
def extract_request_body_schema (request_body : RequestBody) : Option RequestBodySchema :=
  match (request_body.content.lookup "application/json").orElse
      (fun _ => request_body.content.head?.map (fun kv => kv.2)) with
  | none => none
  | some media_type =>
    match media_type.schema with
    | none => none
    | some schema =>
      let props1 := mergeProps [] schema.properties
      let req1 := (schema.required).getD []
      let props2 :=
        match schema.all_of with
        | some subs => subs.foldl (fun m sub => mergeProps m sub.properties) props1
        | none => props1
      let req2 := req1 ++
        (match schema.all_of with
         | some subs => subs.flatMap (fun sub => (sub.required).getD [])
         | none => [])
      let props3 :=
        match schema.any_of with
        | some (first :: _) => mergeProps props2 first.properties
        | _ => props2
      let req3 := req2 ++
        (match schema.any_of with
         | some (first :: _) => (first.required).getD []
         | _ => [])
      if props3.isEmpty then none
      else some { content_type := "application/json", properties := props3, required := req3 }

/-- The parameter loop of `create_endpoint`: location `path` to the first
bucket, `query` to the second, anything else dropped. -/
def partitionParams (params : List Parameter) : List EndpointParameter × List EndpointParameter :=
  params.foldl (fun acc param =>
    let endpoint_param := convert_parameter param
    if param.location = "path" then (acc.1 ++ [endpoint_param], acc.2)
    else if param.location = "query" then (acc.1, acc.2 ++ [endpoint_param])
    else acc) ([], [])

/-- `create_endpoint` from `swagger.rs` (`&self` is unused by the source
body).  It always returns `some`. -/
def create_endpoint (path : String) (method : HttpMethod) (operation : Operation) :
    Option PangolinEndpoint :=
  let name := generate_tool_name path method
  let description :=
    ((operation.description).orElse (fun _ => operation.summary)).getD
      (method.as_str ++ " " ++ path)
  let params := partitionParams operation.parameters
  let request_body := operation.request_body.bind extract_request_body_schema
  some
    { name := name
      method := method
      path := path
      description := description
      tags := operation.tags
      path_params := params.1
      query_params := params.2
      request_body := request_body }

/-- One `if let Some(op) = &path_item.<method>` block of `extract_endpoints`. -/
def methodEndpoints (path : String) (method : HttpMethod) (op : Option Operation) :
    List PangolinEndpoint :=
  match op with
  | some operation =>
    match create_endpoint path method operation with
    | some e => [e]
    | none => []
  | none => []

/-- The per-path body of `extract_endpoints`: the five methods are probed in
the fixed source order GET, POST, PUT, DELETE, PATCH. -/
def pathItemEndpoints (path : String) (item : PathItem) : List PangolinEndpoint :=
  methodEndpoints path .Get item.get ++ methodEndpoints path .Post item.post
    ++ methodEndpoints path .Put item.put ++ methodEndpoints path .Delete item.delete
    ++ methodEndpoints path .Patch item.patch

/-- `SwaggerSpec::extract_endpoints` from `swagger.rs`: a push loop over the
paths in declared order. -/
def SwaggerSpec.extract_endpoints (spec : SwaggerSpec) : List PangolinEndpoint :=
  spec.paths.foldl (fun acc kv => acc ++ pathItemEndpoints kv.1 kv.2) []

/-- Error type modelling an `anyhow` error produced by
`.context(...)`: the attached context message plus the underlying failure
detail it wraps. -/
structure ParseError where
  context : String
  detail : String

/-- `SwaggerSpec::from_json` from `swagger.rs`.  The two parameters are the
outcomes of the two `serde_json::from_str` attempts the source makes on the
same input text: first as the `SwaggerDocument` envelope, then directly as a
`SwaggerSpec`.  On success of the first, the nested document is returned; the
error case wraps the direct-parse failure detail with the source's context
message. -/
def SwaggerSpec.from_json (wrapped : Except String SwaggerDocument)
    (direct : Except String SwaggerSpec) : Except ParseError SwaggerSpec :=
  match wrapped with
  | .ok doc => .ok doc.swagger_doc
  | .error _ =>
    match direct with
    | .ok spec => .ok spec
    | .error e => .error { context := "Failed to parse swagger JSON", detail := e }

/-! ## HTTP client model (`pangolin_client.rs`) -/

/-- `build_url` from `swagger.rs`: trim trailing `/` from the base, append
the template, substitute each `\x7bkey\x7d`. -/
def build_url (base_url : String) (path : String) (path_params : List (String × String)) :
    String :=
  path_params.foldl
    (fun url kv => url.replace ("\x7b" ++ kv.1 ++ "\x7d") kv.2)
    (String.mk (base_url.data.reverse.dropWhile (fun c => c = '/')).reverse ++ path)

/-- Model of `http::StatusCode`: numeric code plus canonical reason phrase. -/
structure StatusCode where
  code : Nat
  canonical_reason : Option String

/-- `StatusCode::is_success`: 200–299. -/
def StatusCode.is_success (st : StatusCode) : Bool :=
  200 ≤ st.code && st.code ≤ 299

/-- The `Display` rendering of `http::StatusCode`: code, space, canonical
reason (a fixed placeholder when unknown). -/
def StatusCode.display (st : StatusCode) : String :=
  toString st.code ++ " " ++ st.canonical_reason.getD "<unknown status code>"

/-- The request handed to the HTTP collaborator: the exact argument tuple of
`PangolinClient::call`. -/
structure HttpRequest where
  method : HttpMethod
  path : String
  path_params : List (String × String)
  query_params : List (String × String)
  body : Option Json

/-- What the transport layer (reqwest) hands back for one sent request:
a send failure, a failure reading the body text, or a response with status,
body text, and the outcome `text_json` of `serde_json::from_str` on that
text (`none` when the text is not valid JSON). -/
inductive TransportResult where
  | sendFailure (detail : String) : TransportResult
  | textFailure (detail : String) : TransportResult
  | response (status : StatusCode) (text : String) (text_json : Option Json) : TransportResult

/-- The error-message extraction of `PangolinClient::call` on a non-success
status: parse the body as JSON, take the `message` field, else the `error`
field, keep it only if it is a string, else fall back to the raw body text. -/
def extract_api_error_msg (text_json : Option Json) (text : String) : String :=
  (text_json.bind (fun v =>
    ((v.get "message").orElse (fun _ => v.get "error")).bind Json.asStr)).getD text

/-- `PangolinClient::call` from `pangolin_client.rs`, from the point where the
transport outcome is known.  Errors carry the `Display` text of the `anyhow`
error the source produces (the attached context for transport failures, the
`bail!` format string for API-status errors). -/
def pangolin_call (outcome : TransportResult) : Except String Json :=
  match outcome with
  | .sendFailure _ => .error "Failed to send request to Pangolin API"
  | .textFailure _ => .error "Failed to read response"
  | .response st text text_json =>
    if st.is_success then
      .ok (if text = "" then Json.obj [("status", Json.str "success")]
           else text_json.getD (Json.str text))
    else
      .error ("Pangolin API error (" ++ st.display ++ "): "
        ++ extract_api_error_msg text_json text)

/-! ## Service facade (`service.rs`) -/

/-- Model of `rmcp::ErrorData` as produced by `ErrorData::invalid_params`. -/
structure ErrorData where
  code : Int
  message : String

/-- `ErrorData::invalid_params` (JSON-RPC code −32602). -/
def ErrorData.invalid_params (message : String) : ErrorData :=
  { code := -32602, message := message }

/-- Model of `rmcp::model::CallToolResult`: the `content` vector (each
`Content::text` modelled by its string) and the `is_error` flag. -/
structure CallToolResult where
  content : List String
  is_error : Option Bool

/-- `PangolinService` from `service.rs` (the client's credentials inlined). -/
structure PangolinService where
  endpoints : List PangolinEndpoint
  read_only : Bool
  api_version : String
  base_url : String
  api_key : String

/-- `PangolinService::find_endpoint` from `service.rs`: first endpoint in
extraction order whose name matches. -/
def PangolinService.find_endpoint (svc : PangolinService) (name : String) :
    Option PangolinEndpoint :=
  svc.endpoints.find? (fun e => e.name == name)

/-- `PangolinService::get_available_endpoints` from `service.rs`. -/
def PangolinService.get_available_endpoints (svc : PangolinService) : List PangolinEndpoint :=
  if svc.read_only then svc.endpoints.filter (fun e => !e.method.is_write_operation)
  else svc.endpoints

/-- `value_to_string` from `service.rs`. -/
def value_to_string (value : Json) : String :=
  match value with
  | .str s => s
  | .num n => toString n
  | .bool b => if b then "true" else "false"
  | .null => ""
  | other => jsonCompact other

/-- The path-parameter loop of `call_tool`: stringify each supplied declared
path parameter; fail on the first required one that is absent. -/
def collectPathParams (params : List EndpointParameter) (args : List (String × Json)) :
    Except ErrorData (List (String × String)) :=
  match params with
  | [] => .ok []
  | p :: rest =>
    match args.lookup p.name with
    | some value =>
      match collectPathParams rest args with
      | .ok ps => .ok ((p.name, value_to_string value) :: ps)
      | .error e => .error e
    | none =>
      if p.required then
        .error (ErrorData.invalid_params ("Missing required path parameter: " ++ p.name))
      else collectPathParams rest args

/-- The query-parameter loop of `call_tool`: supplied declared query
parameters are stringified; absent ones are skipped without error. -/
def collectQueryParams (params : List EndpointParameter) (args : List (String × Json)) :
    List (String × String) :=
  params.foldl (fun acc p =>
    match args.lookup p.name with
    | some value => acc ++ [(p.name, value_to_string value)]
    | none => acc) []

/-- The body loop of `call_tool`: only when the endpoint declares a request
body, every argument whose key matches no declared path or query parameter is
inserted into the body map unchanged. -/
def collectBodyParams (endpoint : PangolinEndpoint) (args : List (String × Json)) :
    List (String × Json) :=
  if endpoint.request_body.isSome then
    args.foldl (fun acc kv =>
      let is_path_param := endpoint.path_params.any (fun p => p.name == kv.1)
      let is_query_param := endpoint.query_params.any (fun p => p.name == kv.1)
      if !is_path_param && !is_query_param then insertMap acc kv.1 kv.2 else acc) []
  else []

/-- The argument-partitioning section of `call_tool`, producing the request
tuple handed to `PangolinClient::call` (an empty body map means no body). -/
def build_request (endpoint : PangolinEndpoint) (args : List (String × Json)) :
    Except ErrorData HttpRequest :=
  match collectPathParams endpoint.path_params args with
  | .error e => .error e
  | .ok path_params =>
    let query_params := collectQueryParams endpoint.query_params args
    let body_params := collectBodyParams endpoint args
    .ok { method := endpoint.method
          path := endpoint.path
          path_params := path_params
          query_params := query_params
          body := if body_params.isEmpty then none else some (Json.obj body_params) }

/-- The blocked-write message of `call_tool` (source string literal, with the
line continuation collapsed). -/
def readOnlyBlockedMessage (tool_name : String) : String :=
  "Error: Write operation \x27" ++ tool_name
    ++ "\x27 is not allowed in read-only mode. The server is configured with PANGOLIN_READ_ONLY=true."

/-- `PangolinService::call_tool` from `service.rs`.  `transport` models the
HTTP collaborator; the returned list records every request actually handed to
it, so an empty list states the collaborator was never contacted. -/
def PangolinService.call_tool (svc : PangolinService) (tool_name : String)
    (args : List (String × Json)) (transport : HttpRequest → TransportResult) :
    Except ErrorData (CallToolResult × List HttpRequest) :=
  match svc.find_endpoint tool_name with
  | none => .error (ErrorData.invalid_params ("Unknown tool: " ++ tool_name))
  | some endpoint =>
    if svc.read_only && endpoint.method.is_write_operation then
      .ok ({ content := [readOnlyBlockedMessage tool_name], is_error := some true }, [])
    else
      match build_request endpoint args with
      | .error e => .error e
      | .ok req =>
        match pangolin_call (transport req) with
        | .ok result =>
          .ok ({ content := [jsonPretty result], is_error := some false }, [req])
        | .error e =>
          .ok ({ content := ["Error: " ++ e], is_error := some true }, [req])

/-! ## Tool projection (`service.rs`, `endpoint_to_mcp`) -/

/-- The JSON-schema entry `endpoint_to_mcp` builds for one path or query
parameter: `type`, optional `description`, optional `default`. -/
def paramProp (param : EndpointParameter) : Json :=
  let prop := insertMap [] "type" (Json.str param.param_type.to_json_schema_type)
  let prop :=
    match param.description with
    | some d => insertMap prop "description" (Json.str d)
    | none => prop
  let prop :=
    match param.default_value with
    | some d => insertMap prop "default" d
    | none => prop
  Json.obj prop

/-- The JSON-schema entry `endpoint_to_mcp` builds for one body property:
`type`, optional `description`, optional `default`, optional `enum`. -/
def bodyProp (prop : PropertySchema) : Json :=
  let m := insertMap [] "type" (Json.str prop.param_type.to_json_schema_type)
  let m :=
    match prop.description with
    | some d => insertMap m "description" (Json.str d)
    | none => m
  let m :=
    match prop.default_value with
    | some d => insertMap m "default" d
    | none => m
  let m :=
    match prop.enum_values with
    | some vs => insertMap m "enum" (Json.arr (vs.map Json.str))
    | none => m
  Json.obj m

/-- The `properties` map built by `endpoint_to_mcp`: path parameters, then
query parameters, then body properties, each added with
`serde_json::Map::insert`. -/
def endpoint_properties (endpoint : PangolinEndpoint) : List (String × Json) :=
  let m := endpoint.path_params.foldl (fun m p => insertMap m p.name (paramProp p)) []
  let m := endpoint.query_params.foldl (fun m p => insertMap m p.name (paramProp p)) m
  match endpoint.request_body with
  | some body => body.properties.foldl (fun m kv => insertMap m kv.1 (bodyProp kv.2)) m
  | none => m

/-- The `required` list built by `endpoint_to_mcp`: required path parameters,
required query parameters, then the body's required names not already
present. -/
def endpoint_required (endpoint : PangolinEndpoint) : List String :=
  let r := endpoint.path_params.foldl (fun r p => if p.required then r ++ [p.name] else r) []
  let r := endpoint.query_params.foldl (fun r p => if p.required then r ++ [p.name] else r) r
  match endpoint.request_body with
  | some body => body.required.foldl (fun r f => if r.contains f then r else r ++ [f]) r
  | none => r

/-- Model of `rmcp::model::Tool`: the fields `endpoint_to_mcp` fills. -/
structure Tool where
  name : String
  description : Option String
  input_schema : Json

/-- `PangolinService::endpoint_to_mcp` from `service.rs` (`&self` is unused
by the source body). -/
def endpoint_to_mcp (endpoint : PangolinEndpoint) : Tool :=
  let properties := endpoint_properties endpoint
  let required := endpoint_required endpoint
  let schema := insertMap [] "type" (Json.str "object")
  let schema := insertMap schema "properties" (Json.obj properties)
  let schema :=
    if required.isEmpty then schema
    else insertMap schema "required" (Json.arr (required.map Json.str))
  let desc := "[" ++ endpoint.method.as_str ++ "] " ++ endpoint.description
  let desc :=
    if endpoint.tags.isEmpty then desc
    else desc ++ " (Tags: " ++ String.intercalate ", " endpoint.tags ++ ")"
  { name := endpoint.name, description := some desc, input_schema := Json.obj schema }

/-- `list_tools` from `service.rs`: one descriptor per available endpoint, in
order. -/
def PangolinService.list_tools (svc : PangolinService) : List Tool :=
  svc.get_available_endpoints.map endpoint_to_mcp

/-! ## Claim-side definitions and concrete instances -/

/-- The name-generation procedure exactly as the specification words it
(refinement counterpart of `generate_tool_name`): strip the leading `/`,
replace every remaining `/` and `-` with `_`, replace every placeholder
`\x7bx\x7d` with `by_x`, prepend the method prefix, and fall back to
`health_check` when the transformed path is empty. -/
def generate_name_spec_words (path : String) (method : HttpMethod) : String :=
  let stripped := path.data.dropWhile (fun c => c = '/')
  let underscored := stripped.map (fun c => if c = '/' ∨ c = '-' then '_' else c)
  let with_by := replacePlaceholders underscored
  let pre :=
    match method with
    | .Get => ""
    | .Post => "update_"
    | .Put => "create_"
    | .Delete => "delete_"
    | .Patch => "patch_"
  if with_by = [] then pre ++ "health_check" else pre ++ String.mk with_by

/-- The number of the five supported methods declared at one path. -/
def methodCount (item : PathItem) : Nat :=
  (if item.get.isSome then 1 else 0) + (if item.post.isSome then 1 else 0)
    + (if item.put.isSome then 1 else 0) + (if item.delete.isSome then 1 else 0)
    + (if item.patch.isSome then 1 else 0)

/-- The requests a `call_tool` run handed to the HTTP collaborator. -/
def callRequests (r : Except ErrorData (CallToolResult × List HttpRequest)) :
    List HttpRequest :=
  match r with
  | .ok pr => pr.2
  | .error _ => []

/-- A transport stub that always fails to send. -/
def apiStub : HttpRequest → TransportResult :=
  fun _ => .sendFailure "connection refused"

/-- A transport stub that always answers 404 with plain-text body `boom`. -/
def apiW : HttpRequest → TransportResult :=
  fun _ => .response { code := 404, canonical_reason := some "Not Found" } "boom" none

/-- Concrete GET endpoint without parameters or body. -/
def eGet : PangolinEndpoint :=
  { name := "orgs", method := .Get, path := "/orgs", description := "List all organizations"
    tags := [], path_params := [], query_params := [], request_body := none }

/-- Concrete read-write service exposing only `eGet`. -/
def svcW : PangolinService :=
  { endpoints := [eGet], read_only := false, api_version := "v1"
    base_url := "http://pangolin.local/v1", api_key := "k" }

/-- The request `call_tool` builds for `eGet` with no arguments. -/
def reqW : HttpRequest :=
  { method := .Get, path := "/orgs", path_params := [], query_params := [], body := none }

/-- Concrete write (PUT) endpoint. -/
def eW : PangolinEndpoint :=
  { name := "create_org", method := .Put, path := "/org", description := "Create an organization"
    tags := [], path_params := [], query_params := [], request_body := none }

/-- Concrete read-only service exposing only the write endpoint `eW`. -/
def svcRO : PangolinService :=
  { endpoints := [eW], read_only := true, api_version := "v1"
    base_url := "http://pangolin.local/v1", api_key := "k" }

/-- Concrete required path parameter `orgId`. -/
def orgIdParam : EndpointParameter :=
  { name := "orgId", param_type := .string, required := true
    description := none, default_value := none }

/-- Concrete GET endpoint with one required path parameter and no body. -/
def e8 : PangolinEndpoint :=
  { name := "org_by_orgId", method := .Get, path := "/org/\x7borgId\x7d"
    description := "Get an organization", tags := []
    path_params := [orgIdParam], query_params := [], request_body := none }

/-- Concrete read-write service exposing only `e8`. -/
def svc8 : PangolinService :=
  { endpoints := [e8], read_only := false, api_version := "v1"
    base_url := "http://pangolin.local/v1", api_key := "k" }

/-- The request `call_tool` builds for `e8` with arguments
`orgId = "abc"` plus an extra undeclared key. -/
def req9 : HttpRequest :=
  { method := .Get, path := "/org/\x7borgId\x7d", path_params := [("orgId", "abc")]
    query_params := [], body := none }

/-- Concrete path parameter `x` carrying a description. -/
def pxW : EndpointParameter :=
  { name := "x", param_type := .string, required := true
    description := some "from path parameter", default_value := none }

/-- Concrete body property also named `x`, carrying an enum. -/
def bpW : PropertySchema :=
  .mk "x" .string none none (some ["A"]) false none none none none none none

/-- Concrete body schema whose single property collides with `pxW`. -/
def bodyC4 : RequestBodySchema :=
  { content_type := "application/json", properties := [("x", bpW)], required := [] }

/-- Concrete POST endpoint where a body property shares the name of a path
parameter. -/
def eC4 : PangolinEndpoint :=
  { name := "update_thing_by_x", method := .Post, path := "/thing/\x7bx\x7d"
    description := "d", tags := [], path_params := [pxW], query_params := []
    request_body := some bodyC4 }

/-- Concrete source schema property of type string. -/
def spW : SchemaProperty :=
  .mk (some "string") none none none none none none none none none none none none none none none

/-- Concrete source schema: direct property/required `a`, plus an `allOf`
sub-schema requiring `a` again. -/
def schemaW : Schema :=
  .mk (some "object") (some [("a", spW)]) (some ["a"]) none none
    (some [Schema.mk none none (some ["a"]) none none none none none]) none none

/-- Concrete `application/json` media type wrapping `schemaW`. -/
def mtW : MediaType := { schema := some schemaW }

/-- Concrete request body wrapping `mtW`. -/
def rbW : RequestBody :=
  { required := true, content := [("application/json", mtW)] }

/-- The body schema `extract_request_body_schema` produces for `rbW`. -/
def sW : RequestBodySchema :=
  { content_type := "application/json"
    properties := [("a", PropertySchema.mk "a" .string none none none false none none none none none none)]
    required := ["a", "a"] }

/-- Two distinct endpoints normalizing to the same generated name. -/
def eA : PangolinEndpoint :=
  { name := "a_b", method := .Get, path := "/a-b", description := "first", tags := []
    path_params := [], query_params := [], request_body := none }

/-- Second endpoint with the colliding name (distinct path). -/
def eB : PangolinEndpoint :=
  { name := "a_b", method := .Get, path := "/a/b", description := "second", tags := []
    path_params := [], query_params := [], request_body := none }

/-- Concrete read-write service holding the two colliding endpoints in
extraction order. -/
def svc10 : PangolinService :=
  { endpoints := [eA, eB], read_only := false, api_version := "v1"
    base_url := "http://pangolin.local/v1", api_key := "k" }

/-! ## Theorems -/

/-- Helper: a push-append loop is a `flatMap`. -/
theorem foldl_append_eq_flatMap {α β : Type} (f : α → List β) :
    ∀ (l : List α) (acc : List β),
      l.foldl (fun a x => a ++ f x) acc = acc ++ l.flatMap f := by
  intro l
  induction l with
  | nil => intro acc; simp
  | cons x xs ih => intro acc; simp [ih]

/-- Helper: each declared method yields exactly one endpoint. -/
theorem methodEndpoints_length (path : String) (m : HttpMethod) (op : Option Operation) :
    (methodEndpoints path m op).length = if op.isSome then 1 else 0 := by
  cases op <;> simp [methodEndpoints, create_endpoint]

/-- Helper: the per-path endpoint count is the number of declared methods. -/
theorem pathItemEndpoints_length (path : String) (item : PathItem) :
    (pathItemEndpoints path item).length = methodCount item := by
  simp [pathItemEndpoints, methodCount, methodEndpoints_length]
  omega

/-- C1: for every path template and method, the generated operation name is
the spec's transform (strip the leading `/`, rewrite `/` and `-` to `_`,
rewrite each placeholder `\x7bx\x7d` to `by_x`, prepend the method prefix,
`health_check` for the empty transform), with the stated prefix table and the
four concrete examples. -/
theorem generate_tool_name_spec :
    (∀ (p : String) (m : HttpMethod), generate_tool_name p m = generate_name_spec_words p m)
    ∧ method_pfx .Get = "" ∧ method_pfx .Post = "update_" ∧ method_pfx .Put = "create_"
    ∧ method_pfx .Delete = "delete_" ∧ method_pfx .Patch = "patch_"
    ∧ generate_tool_name "/org/\x7borgId\x7d/site" .Put = "create_org_by_orgId_site"
    ∧ generate_tool_name "/site/\x7bsiteId\x7d" .Delete = "delete_site_by_siteId"
    ∧ generate_tool_name "/org/\x7borgId\x7d/site" .Get = "org_by_orgId_site"
    ∧ generate_tool_name "/" .Get = "health_check" := by
  refine ⟨?_, rfl, rfl, rfl, rfl, rfl, by decide, by decide, by decide, by decide⟩
  intro p m
  have hmap : cleanPath p =
      (p.data.dropWhile (fun c => c = '/')).map
        (fun c => if c = '/' ∨ c = '-' then '_' else c) := by
    unfold cleanPath
    congr 1
    funext c
    by_cases h1 : c = '/' <;> by_cases h2 : c = '-' <;> simp [h1, h2]
  cases m <;>
    simp [generate_tool_name, generate_name_spec_words, method_pfx, hmap, List.isEmpty_iff]

/-- C3: extraction walks the paths in declared order, produces per path the
endpoints of the five methods in the fixed order GET, POST, PUT, DELETE,
PATCH, yields exactly one endpoint per declared (path, method) pair, and its
total length is the sum over paths of the number of declared methods. -/
theorem extract_endpoints_count_and_order :
    ∀ spec : SwaggerSpec,
      spec.extract_endpoints = spec.paths.flatMap (fun kv => pathItemEndpoints kv.1 kv.2)
      ∧ spec.extract_endpoints.length = (spec.paths.map (fun kv => methodCount kv.2)).sum
      ∧ (∀ (path : String) (m : HttpMethod) (op : Operation),
          ∃ e, methodEndpoints path m (some op) = [e] ∧ e.method = m ∧ e.path = path) := by
  intro spec
  have hflat : spec.extract_endpoints
      = spec.paths.flatMap (fun kv => pathItemEndpoints kv.1 kv.2) := by
    unfold SwaggerSpec.extract_endpoints
    simpa using foldl_append_eq_flatMap (fun kv => pathItemEndpoints kv.1 kv.2) spec.paths []
  refine ⟨hflat, ?_, ?_⟩
  · rw [hflat]
    induction spec.paths with
    | nil => simp
    | cons x xs ih => simp [ih, pathItemEndpoints_length]
  · intro path m op
    exact ⟨_, rfl, rfl, rfl⟩

/-- C2: under `read_only`, a write-method operation short-circuits into a
successful protocol response flagged as an error whose content names the
operation, and no request is handed to the HTTP collaborator. -/
theorem read_only_blocks_write :
    ∀ (svc : PangolinService) (tool_name : String) (args : List (String × Json))
      (transport : HttpRequest → TransportResult) (e : PangolinEndpoint),
      svc.read_only = true →
      svc.find_endpoint tool_name = some e →
      e.method.is_write_operation = true →
      svc.call_tool tool_name args transport =
        .ok ({ content := [readOnlyBlockedMessage tool_name], is_error := some true }, [])
      ∧ (∃ s t, readOnlyBlockedMessage tool_name = s ++ tool_name ++ t) := by
  intro svc tool_name args transport e hro hfind hw
  constructor
  · unfold PangolinService.call_tool
    rw [hfind]
    simp [hro, hw]
  · exact ⟨"Error: Write operation \x27",
      "\x27 is not allowed in read-only mode. The server is configured with PANGOLIN_READ_ONLY=true.",
      rfl⟩

/-- Witness for C2 at a concrete read-only service and PUT endpoint. -/
theorem read_only_blocks_write_app :
    svcRO.call_tool "create_org" [] apiStub =
      .ok ({ content := [readOnlyBlockedMessage "create_org"], is_error := some true }, [])
    ∧ (∃ s t, readOnlyBlockedMessage "create_org" = s ++ "create_org" ++ t) :=
  read_only_blocks_write svcRO "create_org" [] apiStub eW rfl rfl rfl

/-- C7: parsing tries the envelope first and returns its nested document on
success, falls back to the direct parse, fails only when both fail, and the
surfaced error wraps the direct-parse failure detail. -/
theorem from_json_fallback :
    ∀ (w : Except String SwaggerDocument) (d : Except String SwaggerSpec),
      (∀ doc, w = .ok doc → SwaggerSpec.from_json w d = .ok doc.swagger_doc)
      ∧ (∀ ew s, w = .error ew → d = .ok s → SwaggerSpec.from_json w d = .ok s)
      ∧ (∀ ew ed, w = .error ew → d = .error ed →
          SwaggerSpec.from_json w d =
            .error { context := "Failed to parse swagger JSON", detail := ed })
      ∧ ((∃ pe, SwaggerSpec.from_json w d = .error pe) ↔
          (∃ ew, w = .error ew) ∧ (∃ ed, d = .error ed)) := by
  intro w d
  cases w <;> cases d <;> simp [SwaggerSpec.from_json]

/-- Witness for C7 at a concrete pair of failed parse attempts. -/
theorem from_json_fallback_app :
    SwaggerSpec.from_json (.error "envelope mismatch") (.error "expected value at line 1") =
      .error { context := "Failed to parse swagger JSON", detail := "expected value at line 1" } :=
  (from_json_fallback (.error "envelope mismatch") (.error "expected value at line 1")).2.2.1
    "envelope mismatch" "expected value at line 1" rfl rfl

/-- Helper: looking up the key bound at the head of an association list. -/
theorem lookup_cons_self {α : Type} (a : String) (b : α) (l : List (String × α)) :
    List.lookup a ((a, b) :: l) = some b := by
  simp [List.lookup]

/-- Helper: a head binding of a different key is skipped by lookup. -/
theorem lookup_cons_ne {α : Type} {k a : String} (b : α) (l : List (String × α))
    (h : k ≠ a) : List.lookup k ((a, b) :: l) = List.lookup k l := by
  simp [List.lookup, beq_eq_false_iff_ne.mpr h]

/-- Helper: after an in-place update of key `k`, looking `k` up yields the
new value. -/
theorem lookup_map_update_self {α : Type} (k : String) (v : α) :
    ∀ m : List (String × α), m.any (fun kv => kv.1 = k) = true →
      (m.map (fun kv => if kv.1 = k then (k, v) else kv)).lookup k = some v := by
  intro m
  induction m with
  | nil => simp
  | cons x rest ih =>
    obtain ⟨a, b⟩ := x
    intro h
    by_cases hx : a = k
    · subst hx
      simp only [List.map_cons, if_pos rfl]
      exact lookup_cons_self a v _
    · simp only [List.map_cons, if_neg hx]
      have hrest : rest.any (fun kv => kv.1 = k) = true := by simpa [hx] using h
      rw [lookup_cons_ne b _ (Ne.symm hx)]
      exact ih hrest

/-- Helper: appending a fresh binding of `k` makes `k` resolve to it. -/
theorem lookup_append_single_self {α : Type} (k : String) (v : α) :
    ∀ m : List (String × α), m.any (fun kv => kv.1 = k) = false →
      (m ++ [(k, v)]).lookup k = some v := by
  intro m
  induction m with
  | nil =>
    intro _
    exact lookup_cons_self k v []
  | cons x rest ih =>
    obtain ⟨a, b⟩ := x
    intro h
    have hx : a ≠ k := by
      intro hk
      simp [hk] at h
    have hrest : rest.any (fun kv => kv.1 = k) = false := by
      simpa [hx] using h
    rw [List.cons_append, lookup_cons_ne b _ (Ne.symm hx)]
    exact ih hrest

/-- Helper: `insertMap` binds its key to its value. -/
theorem lookup_insertMap_self {α : Type} (m : List (String × α)) (k : String) (v : α) :
    (insertMap m k v).lookup k = some v := by
  unfold insertMap
  by_cases h : m.any (fun kv => kv.1 = k) = true
  · simp only [h, if_true]
    exact lookup_map_update_self k v m h
  · have h' : m.any (fun kv => kv.1 = k) = false := by
      exact Bool.not_eq_true _ ▸ Bool.of_not_eq_true h
    simp only [h', Bool.false_eq_true, if_false]
    exact lookup_append_single_self k v m h'

/-- Helper: an in-place update of key `k` leaves other lookups unchanged. -/
theorem lookup_map_update_ne {α : Type} (k k' : String) (v : α) (hne : k' ≠ k) :
    ∀ m : List (String × α),
      (m.map (fun kv => if kv.1 = k then (k, v) else kv)).lookup k' = m.lookup k' := by
  intro m
  induction m with
  | nil => simp
  | cons x rest ih =>
    obtain ⟨a, b⟩ := x
    by_cases hx : a = k
    · subst hx
      have hhead : (if (a, b).1 = a then (a, v) else (a, b)) = (a, v) := by simp
      rw [List.map_cons, hhead, lookup_cons_ne v _ hne, lookup_cons_ne b _ hne]
      exact ih
    · simp only [List.map_cons, if_neg hx]
      by_cases hx' : k' = a
      · subst hx'
        rw [lookup_cons_self k' b, lookup_cons_self k' b]
      · rw [lookup_cons_ne b _ hx', lookup_cons_ne b _ hx']
        exact ih

/-- Helper: appending a binding of `k` leaves other lookups unchanged. -/
theorem lookup_append_single_ne {α : Type} (k k' : String) (v : α) (hne : k' ≠ k) :
    ∀ m : List (String × α), (m ++ [(k, v)]).lookup k' = m.lookup k' := by
  intro m
  induction m with
  | nil =>
    simpa using lookup_cons_ne v [] hne
  | cons x rest ih =>
    obtain ⟨a, b⟩ := x
    by_cases hx' : k' = a
    · subst hx'
      rw [List.cons_append, lookup_cons_self k' b, lookup_cons_self k' b]
    · rw [List.cons_append, lookup_cons_ne b _ hx', lookup_cons_ne b _ hx']
      exact ih

/-- Helper: `insertMap` leaves lookups of other keys unchanged. -/
theorem lookup_insertMap_ne {α : Type} (m : List (String × α)) (k k' : String) (v : α)
    (hne : k' ≠ k) : (insertMap m k v).lookup k' = m.lookup k' := by
  unfold insertMap
  by_cases h : m.any (fun kv => kv.1 = k) = true
  · simp only [h, if_true]
    exact lookup_map_update_ne k k' v hne m
  · have h' : m.any (fun kv => kv.1 = k) = false := by
      exact Bool.not_eq_true _ ▸ Bool.of_not_eq_true h
    simp only [h', Bool.false_eq_true, if_false]
    exact lookup_append_single_ne k k' v hne m

/-- Helper: a fold of `insertMap`s over entries whose keys all differ from
`kk` leaves `kk`'s lookup unchanged. -/
theorem lookup_foldl_insert_of_no_key {β γ : Type} (key : β → String) (val : β → γ) :
    ∀ (ps : List β) (m0 : List (String × γ)) (kk : String),
      (∀ q ∈ ps, key q ≠ kk) →
      (ps.foldl (fun m p => insertMap m (key p) (val p)) m0).lookup kk = m0.lookup kk := by
  intro ps
  induction ps with
  | nil => intro m0 kk _; rfl
  | cons x rest ih =>
    intro m0 kk hk
    have hx : key x ≠ kk := hk x (by simp)
    have hrest : ∀ q ∈ rest, key q ≠ kk := fun q hq => hk q (by simp [hq])
    simp only [List.foldl_cons]
    rw [ih _ kk hrest, lookup_insertMap_ne _ _ _ _ (Ne.symm hx)]

/-- Helper: folding `insertMap`s over entries with pairwise-distinct keys
resolves a present key to its (unique) entry's value. -/
theorem lookup_foldl_insert_of_key_mem {β γ : Type} (key : β → String) (val : β → γ) :
    ∀ (ps : List β) (m0 : List (String × γ)) (q : β),
      q ∈ ps → (ps.map key).Nodup →
      (ps.foldl (fun m p => insertMap m (key p) (val p)) m0).lookup (key q) = some (val q) := by
  intro ps
  induction ps with
  | nil => intro m0 q hq; simp at hq
  | cons x rest ih =>
    intro m0 q hq hnd
    simp only [List.map_cons, List.nodup_cons] at hnd
    simp only [List.foldl_cons]
    rcases List.mem_cons.mp hq with hqx | hqrest
    · subst hqx
      have hk : ∀ r ∈ rest, key r ≠ key q := by
        intro r hr he
        exact hnd.1 (he ▸ List.mem_map_of_mem key hr)
      rw [lookup_foldl_insert_of_no_key key val rest _ (key q) hk]
      exact lookup_insertMap_self _ _ _
    · exact ih _ q hqrest hnd.2

/-- C4 counterexample: in `eC4` a body property named `x` collides with the
path parameter `x`; the projected properties map carries the body property's
entry, not the path parameter's — later insertions do overwrite. -/
theorem endpoint_properties_overwrite_cex :
    (endpoint_properties eC4).lookup "x" = some (bodyProp bpW)
    ∧ bodyProp bpW ≠ paramProp pxW := by
  constructor
  · rfl
  · intro h
    rw [show bodyProp bpW
          = Json.obj [("type", Json.str "string"), ("enum", Json.arr [Json.str "A"])] from rfl,
        show paramProp pxW
          = Json.obj [("type", Json.str "string"),
              ("description", Json.str "from path parameter")] from rfl] at h
    simp at h

/-- C4 amended: the projected properties map aggregates path, then query,
then body entries, but `insert` replaces values on key collision — a body
property sharing a name with a path or query parameter overwrites it. -/
theorem endpoint_properties_body_overwrites :
    ∀ (e : PangolinEndpoint) (b : RequestBodySchema) (kk : String) (prop : PropertySchema),
      e.request_body = some b →
      (b.properties.map Prod.fst).Nodup →
      (kk, prop) ∈ b.properties →
      (endpoint_properties e).lookup kk = some (bodyProp prop) := by
  intro e b kk prop hrb hnd hmem
  unfold endpoint_properties
  rw [hrb]
  exact lookup_foldl_insert_of_key_mem Prod.fst (fun kv => bodyProp kv.2)
    b.properties _ (kk, prop) hmem hnd

/-- Witness for the amended C4 at the concrete colliding endpoint. -/
theorem endpoint_properties_body_overwrites_app :
    (endpoint_properties eC4).lookup "x" = some (bodyProp bpW) :=
  endpoint_properties_body_overwrites eC4 bodyC4 "x" bpW rfl (by simp [bodyC4])
    (by simp [bodyC4])

/-- C5 counterexample: on a 404 response with body `boom`, the returned call
result content is `Error: Pangolin API error (404 Not Found): boom` — it is
not exactly `Pangolin API error (404 Not Found): boom` as claimed, because
`call_tool` prepends `Error: ` to the client error. -/
theorem api_error_content_cex :
    svcW.call_tool "orgs" [] apiW =
      .ok ({ content := ["Error: Pangolin API error (404 Not Found): boom"]
             is_error := some true }, [reqW])
    ∧ "Error: Pangolin API error (404 Not Found): boom"
        ≠ "Pangolin API error (404 Not Found): boom" :=
  ⟨rfl, by decide⟩

/-- C5 amended: on a non-success status the call result is error-flagged and
its content is exactly `Error: ` followed by
`Pangolin API error (<status>): <message>`, where the message is the string
value of the body's `message` field, else its `error` field, else the raw
body text. -/
theorem api_error_content :
    ∀ (svc : PangolinService) (tool_name : String) (args : List (String × Json))
      (transport : HttpRequest → TransportResult) (e : PangolinEndpoint)
      (req : HttpRequest) (st : StatusCode) (text : String) (text_json : Option Json),
      svc.find_endpoint tool_name = some e →
      (svc.read_only && e.method.is_write_operation) = false →
      build_request e args = .ok req →
      transport req = .response st text text_json →
      st.is_success = false →
      svc.call_tool tool_name args transport =
        .ok ({ content := ["Error: "
                 ++ ("Pangolin API error (" ++ st.display ++ "): "
                     ++ extract_api_error_msg text_json text)]
               is_error := some true }, [req]) := by
  intro svc tool_name args transport e req st text text_json hfind hro hbuild htr hst
  unfold PangolinService.call_tool
  rw [hfind]
  simp only [hro, Bool.false_eq_true, if_false, hbuild, htr]
  unfold pangolin_call
  simp only [hst, Bool.false_eq_true, if_false]

/-- Witness for the amended C5 at the concrete 404 transport stub. -/
theorem api_error_content_app :
    svcW.call_tool "orgs" [] apiW =
      .ok ({ content := ["Error: "
               ++ ("Pangolin API error ("
                     ++ StatusCode.display { code := 404, canonical_reason := some "Not Found" }
                     ++ "): "
                   ++ extract_api_error_msg none "boom")]
             is_error := some true }, [reqW]) :=
  api_error_content svcW "orgs" [] apiW eGet reqW
    { code := 404, canonical_reason := some "Not Found" } "boom" none rfl rfl rfl rfl rfl

/-- C6 counterexample: for `rbW` (direct `required: [a]` plus an `allOf`
sub-schema with `required: [a]`), the produced body schema's required list is
`[a, a]` — merging does not suppress duplicates. -/
theorem request_body_required_dup_cex :
    (extract_request_body_schema rbW).map (fun s => s.required) = some ["a", "a"]
    ∧ ¬ (["a", "a"] : List String).Nodup :=
  ⟨rfl, by decide⟩

/-- C6 amended: the produced required list is the plain concatenation of the
direct `required`, the `allOf` sub-schemas' `required` lists in order, and
the first `anyOf` entry's `required`; duplicates are preserved (they are only
deduplicated later, in the tool projection). -/
theorem request_body_required_concat :
    ∀ (rb : RequestBody) (mt : MediaType) (schema : Schema) (s : RequestBodySchema),
      (rb.content.lookup "application/json").orElse
          (fun _ => rb.content.head?.map (fun kv => kv.2)) = some mt →
      mt.schema = some schema →
      extract_request_body_schema rb = some s →
      s.required = (schema.required).getD []
        ++ (match schema.all_of with
            | some subs => subs.flatMap (fun sub => (sub.required).getD [])
            | none => [])
        ++ (match schema.any_of with
            | some (first :: _) => (first.required).getD []
            | _ => []) := by
  intro rb mt schema s hmt hsch hex
  simp only [extract_request_body_schema, hmt, hsch] at hex
  split at hex
  · exact absurd hex (by simp)
  · injection hex with hs
    subst hs
    rfl

/-- Witness for the amended C6 at the concrete request body `rbW`. -/
theorem request_body_required_concat_app :
    sW.required = ["a"] ++ ["a"] ++ [] :=
  request_body_required_concat rbW mtW schemaW sW rfl rfl rfl

/-- Helper: complete characterization of the path-parameter loop — it fails
exactly on the first declared required-but-absent parameter, with the error
naming it, and succeeds otherwise. -/
theorem collectPathParams_characterization :
    ∀ (params : List EndpointParameter) (args : List (String × Json)),
      match params.find? (fun q => q.required && (args.lookup q.name).isNone) with
      | some p => collectPathParams params args
          = .error (ErrorData.invalid_params ("Missing required path parameter: " ++ p.name))
      | none => ∃ l, collectPathParams params args = .ok l := by
  intro params args
  induction params with
  | nil => exact ⟨[], rfl⟩
  | cons p rest ih =>
    by_cases hc : (p.required && (args.lookup p.name).isNone) = true
    · have hf : List.find? (fun q => q.required && (args.lookup q.name).isNone) (p :: rest)
          = some p := by
        simp [List.find?, hc]
      rw [hf]
      have hboth := hc
      simp only [Bool.and_eq_true] at hboth
      have hnone : args.lookup p.name = none := Option.isNone_iff_eq_none.mp hboth.2
      simp [collectPathParams, hnone, hboth.1]
    · have hc' : (p.required && (args.lookup p.name).isNone) = false := Bool.of_not_eq_true hc
      have hf : List.find? (fun q => q.required && (args.lookup q.name).isNone) (p :: rest)
          = List.find? (fun q => q.required && (args.lookup q.name).isNone) rest := by
        simp [List.find?, hc']
      rw [hf]
      cases hlook : args.lookup p.name with
      | some v =>
        cases hfind : rest.find? (fun q => q.required && (args.lookup q.name).isNone) with
        | some q =>
          simp only [hfind] at ih
          simp [collectPathParams, hlook, ih]
        | none =>
          simp only [hfind] at ih
          obtain ⟨l, hl⟩ := ih
          exact ⟨(p.name, value_to_string v) :: l, by simp [collectPathParams, hlook, hl]⟩
      | none =>
        have hreq : p.required = false := by
          cases hpr : p.required with
          | false => rfl
          | true => exact absurd (by simp [hpr, hlook]) hc
        cases hfind : rest.find? (fun q => q.required && (args.lookup q.name).isNone) with
        | some q =>
          simp only [hfind] at ih
          simp [collectPathParams, hlook, hreq, ih]
        | none =>
          simp only [hfind] at ih
          obtain ⟨l, hl⟩ := ih
          exact ⟨l, by simp [collectPathParams, hlook, hreq, hl]⟩

/-- C8: with the endpoint found and the call not policy-blocked, dispatch
returns a hard protocol error exactly when some declared required path
parameter is absent from the arguments (absent query parameters never cause
it), and the error names the first such parameter. -/
theorem missing_path_param_error :
    ∀ (svc : PangolinService) (tool_name : String) (args : List (String × Json))
      (transport : HttpRequest → TransportResult) (e : PangolinEndpoint),
      svc.find_endpoint tool_name = some e →
      (svc.read_only && e.method.is_write_operation) = false →
      ((∃ err, svc.call_tool tool_name args transport = .error err) ↔
        ∃ p ∈ e.path_params, p.required = true ∧ args.lookup p.name = none)
      ∧ (∀ err, svc.call_tool tool_name args transport = .error err →
          ∃ p, e.path_params.find? (fun q => q.required && (args.lookup q.name).isNone) = some p
            ∧ err = ErrorData.invalid_params ("Missing required path parameter: " ++ p.name)) := by
  intro svc tool_name args transport e hfind hro
  have hchar := collectPathParams_characterization e.path_params args
  have hcall : ∀ r, svc.call_tool tool_name args transport = r ↔
      (match build_request e args with
       | .error err => Except.error err
       | .ok req =>
         match pangolin_call (transport req) with
         | .ok result =>
           Except.ok ({ content := [jsonPretty result], is_error := some false }, [req])
         | .error err =>
           Except.ok ({ content := ["Error: " ++ err], is_error := some true }, [req])) = r := by
    intro r
    unfold PangolinService.call_tool
    rw [hfind]
    simp [hro]
  cases hfound : e.path_params.find? (fun q => q.required && (args.lookup q.name).isNone) with
  | some p =>
    simp only [hfound] at hchar
    have hbuild : build_request e args
        = .error (ErrorData.invalid_params ("Missing required path parameter: " ++ p.name)) := by
      unfold build_request
      rw [hchar]
    have hct := (hcall _).mpr (by rw [hbuild])
    constructor
    · constructor
      · intro _
        have hp := List.find?_some hfound
        have hmem := List.mem_of_find?_eq_some hfound
        simp only [Bool.and_eq_true] at hp
        exact ⟨p, hmem, hp.1, Option.isNone_iff_eq_none.mp hp.2⟩
      · intro _
        exact ⟨_, hct⟩
    · intro err herr
      rw [hct] at herr
      injection herr with h
      exact ⟨p, rfl, h.symm⟩
  | none =>
    simp only [hfound] at hchar
    obtain ⟨l, hl⟩ := hchar
    have hbuild : ∃ req, build_request e args = .ok req := by
      unfold build_request
      rw [hl]
      exact ⟨_, rfl⟩
    obtain ⟨req, hreq⟩ := hbuild
    have hct : svc.call_tool tool_name args transport =
        (match pangolin_call (transport req) with
         | .ok result =>
           Except.ok ({ content := [jsonPretty result], is_error := some false }, [req])
         | .error err =>
           Except.ok ({ content := ["Error: " ++ err], is_error := some true }, [req])) := by
      refine (hcall _).mpr ?_
      rw [hreq]
    have hok : ∃ res, svc.call_tool tool_name args transport = .ok res := by
      rw [hct]
      cases pangolin_call (transport req) with
      | ok result => exact ⟨_, rfl⟩
      | error err => exact ⟨_, rfl⟩
    obtain ⟨res, hres⟩ := hok
    constructor
    · constructor
      · rintro ⟨err, herr⟩
        rw [hres] at herr
        cases herr
      · rintro ⟨p, hmem, hpreq, hnone⟩
        have : e.path_params.find? (fun q => q.required && (args.lookup q.name).isNone) ≠ none := by
          intro hn
          have := List.find?_eq_none.mp hn p hmem
          simp [hpreq, hnone] at this
        exact absurd hfound this
    · intro err herr
      rw [hres] at herr
      cases herr

/-- Witness for C8 at the concrete endpoint `e8` with empty arguments. -/
theorem missing_path_param_error_app :
    ((∃ err, svc8.call_tool "org_by_orgId" [] apiStub = .error err) ↔
      ∃ p ∈ e8.path_params, p.required = true ∧ ([] : List (String × Json)).lookup p.name = none)
    ∧ (∀ err, svc8.call_tool "org_by_orgId" [] apiStub = .error err →
        ∃ p, e8.path_params.find?
              (fun q => q.required && (([] : List (String × Json)).lookup q.name).isNone) = some p
          ∧ err = ErrorData.invalid_params ("Missing required path parameter: " ++ p.name)) :=
  missing_path_param_error svc8 "org_by_orgId" [] apiStub e8 rfl rfl

/-- Helper: every key the path-parameter loop produces is the name of a
declared path parameter. -/
theorem collectPathParams_keys :
    ∀ (params : List EndpointParameter) (args : List (String × Json))
      (l : List (String × String)),
      collectPathParams params args = .ok l →
      ∀ kv ∈ l, ∃ p ∈ params, kv.1 = p.name := by
  intro params
  induction params with
  | nil =>
    intro args l h kv hkv
    injection h with h
    subst h
    simp at hkv
  | cons p rest ih =>
    intro args l h kv hkv
    cases hlook : args.lookup p.name with
    | some v =>
      rw [show collectPathParams (p :: rest) args
            = (match collectPathParams rest args with
               | .ok ps => .ok ((p.name, value_to_string v) :: ps)
               | .error e => .error e) from by simp [collectPathParams, hlook]] at h
      cases hrest : collectPathParams rest args with
      | ok ps =>
        rw [hrest] at h
        injection h with h
        subst h
        rcases List.mem_cons.mp hkv with hhd | htl
        · exact ⟨p, by simp, by rw [hhd]⟩
        · obtain ⟨q, hq, hname⟩ := ih args ps hrest kv htl
          exact ⟨q, by simp [hq], hname⟩
      | error e =>
        rw [hrest] at h
        cases h
    | none =>
      by_cases hreq : p.required = true
      · rw [show collectPathParams (p :: rest) args
              = .error (ErrorData.invalid_params
                  ("Missing required path parameter: " ++ p.name)) from by
            simp [collectPathParams, hlook, hreq]] at h
        cases h
      · have hreq' : p.required = false := Bool.of_not_eq_true hreq
        rw [show collectPathParams (p :: rest) args = collectPathParams rest args from by
            simp [collectPathParams, hlook, hreq']] at h
        obtain ⟨q, hq, hname⟩ := ih args l h kv hkv
        exact ⟨q, by simp [hq], hname⟩

/-- Helper: every key the query-parameter loop produces is the name of a
declared query parameter. -/
theorem collectQueryParams_keys :
    ∀ (params : List EndpointParameter) (args : List (String × Json))
      (acc : List (String × String)) (kv : String × String),
      kv ∈ params.foldl (fun acc p =>
        match args.lookup p.name with
        | some value => acc ++ [(p.name, value_to_string value)]
        | none => acc) acc →
      kv ∈ acc ∨ ∃ p ∈ params, kv.1 = p.name := by
  intro params
  induction params with
  | nil =>
    intro args acc kv h
    exact Or.inl h
  | cons p rest ih =>
    intro args acc kv h
    simp only [List.foldl_cons] at h
    cases hlook : args.lookup p.name with
    | some v =>
      rw [hlook] at h
      rcases ih args _ kv h with hacc | ⟨q, hq, hname⟩
      · rcases List.mem_append.mp hacc with h1 | h2
        · exact Or.inl h1
        · refine Or.inr ⟨p, by simp, ?_⟩
          have : kv = (p.name, value_to_string v) := by simpa using h2
          rw [this]
      · exact Or.inr ⟨q, by simp [hq], hname⟩
    | none =>
      rw [hlook] at h
      rcases ih args acc kv h with hacc | ⟨q, hq, hname⟩
      · exact Or.inl hacc
      · exact Or.inr ⟨q, by simp [hq], hname⟩

/-- C9: when the found endpoint declares no request body, every request
handed to the HTTP collaborator carries no body, and its path and query
buckets hold only declared parameter names — extra arguments are silently
dropped, never sent. -/
theorem no_body_when_absent :
    ∀ (svc : PangolinService) (tool_name : String) (args : List (String × Json))
      (transport : HttpRequest → TransportResult) (e : PangolinEndpoint),
      svc.find_endpoint tool_name = some e →
      e.request_body = none →
      ∀ req ∈ callRequests (svc.call_tool tool_name args transport),
        req.body = none
        ∧ (∀ kv ∈ req.path_params, ∃ p ∈ e.path_params, kv.1 = p.name)
        ∧ (∀ kv ∈ req.query_params, ∃ p ∈ e.query_params, kv.1 = p.name) := by
  intro svc tool_name args transport e hfind hnb req hreq
  revert hreq
  unfold PangolinService.call_tool
  rw [hfind]
  by_cases hro : (svc.read_only && e.method.is_write_operation) = true
  · simp [hro, callRequests]
  · have hro' : (svc.read_only && e.method.is_write_operation) = false :=
      Bool.of_not_eq_true hro
    simp only [hro', Bool.false_eq_true, if_false]
    cases hbr : build_request e args with
    | error err => simp [callRequests]
    | ok r =>
      have hbody : collectBodyParams e args = [] := by
        simp [collectBodyParams, hnb]
      unfold build_request at hbr
      cases hcp : collectPathParams e.path_params args with
      | error e' =>
        rw [hcp] at hbr
        cases hbr
      | ok pps =>
        rw [hcp] at hbr
        injection hbr with hbr
        intro hreq
        replace hreq : req ∈ callRequests
            (match pangolin_call (transport r) with
             | .ok result =>
               Except.ok ({ content := [jsonPretty result], is_error := some false }, [r])
             | .error err =>
               Except.ok ({ content := ["Error: " ++ err], is_error := some true }, [r])) := hreq
        have hr : req = r := by
          cases hpc : pangolin_call (transport r) <;>
            · rw [hpc] at hreq
              simpa [callRequests] using hreq
        subst hr
        rw [← hbr]
        refine ⟨?_, ?_, ?_⟩
        · simp [hbody]
        · intro kv hkv
          exact collectPathParams_keys e.path_params args pps hcp kv hkv
        · intro kv hkv
          rcases collectQueryParams_keys e.query_params args [] kv hkv with h | h
          · simp at h
          · exact h

/-- Witness for C9 at the concrete bodyless endpoint `e8` with an extra
undeclared argument supplied: the request actually sent is `req9`. -/
theorem no_body_when_absent_app :
    req9.body = none
    ∧ (∀ kv ∈ req9.path_params, ∃ p ∈ e8.path_params, kv.1 = p.name)
    ∧ (∀ kv ∈ req9.query_params, ∃ p ∈ e8.query_params, kv.1 = p.name) :=
  no_body_when_absent svc8 "org_by_orgId"
    [("orgId", Json.str "abc"), ("extra", Json.str "junk")] apiW e8 rfl rfl req9
    (List.mem_singleton.mpr rfl)

/-- Helper: `find?` skips a prefix containing no match. -/
theorem find?_append_of_none {α : Type} (p : α → Bool) :
    ∀ (l1 l2 : List α), l1.find? p = none → (l1 ++ l2).find? p = l2.find? p := by
  intro l1
  induction l1 with
  | nil => intro l2 _; rfl
  | cons x rest ih =>
    intro l2 h
    have hx : p x = false := by
      cases hpx : p x with
      | false => rfl
      | true => simp [List.find?, hpx] at h
    have hrest : rest.find? p = none := by
      simpa [List.find?, hx] using h
    simp [List.find?, hx, ih l2 hrest]

/-- C10: name lookup returns the first endpoint in extraction order bearing
the requested name, so of two distinct endpoints with colliding generated
names every call dispatches to the earlier one, while (outside read-only
filtering) both still yield a listed descriptor. -/
theorem find_endpoint_first_match :
    ∀ (svc : PangolinService) (n : String) (l1 l2 l3 : List PangolinEndpoint)
      (e1 e2 : PangolinEndpoint),
      svc.endpoints = l1 ++ e1 :: l2 ++ e2 :: l3 →
      (∀ x ∈ l1, x.name ≠ n) →
      e1.name = n → e2.name = n →
      svc.find_endpoint n = some e1
      ∧ (svc.read_only = false →
          svc.list_tools = svc.endpoints.map endpoint_to_mcp
          ∧ endpoint_to_mcp e1 ∈ svc.list_tools
          ∧ endpoint_to_mcp e2 ∈ svc.list_tools) := by
  intro svc n l1 l2 l3 e1 e2 hsvc hl1 h1 h2
  have hfind : svc.find_endpoint n = some e1 := by
    unfold PangolinService.find_endpoint
    rw [hsvc]
    have hnone : l1.find? (fun e => e.name == n) = none := by
      apply List.find?_eq_none.mpr
      intro x hx
      simp [hl1 x hx]
    rw [List.append_assoc, find?_append_of_none _ l1 _ hnone]
    simp [List.cons_append, List.find?, h1]
  refine ⟨hfind, ?_⟩
  intro hro
  have hav : svc.get_available_endpoints = svc.endpoints := by
    unfold PangolinService.get_available_endpoints
    rw [hro]
    simp
  have hlist : svc.list_tools = svc.endpoints.map endpoint_to_mcp := by
    unfold PangolinService.list_tools
    rw [hav]
  refine ⟨hlist, ?_, ?_⟩
  · rw [hlist, hsvc]
    exact List.mem_map_of_mem _ (by simp)
  · rw [hlist, hsvc]
    exact List.mem_map_of_mem _ (by simp)

/-- Witness for C10 at the two concrete endpoints whose paths `/a-b` and
`/a/b` both normalize to the name `a_b`. -/
theorem find_endpoint_first_match_app :
    svc10.find_endpoint "a_b" = some eA
    ∧ (svc10.read_only = false →
        svc10.list_tools = svc10.endpoints.map endpoint_to_mcp
        ∧ endpoint_to_mcp eA ∈ svc10.list_tools
        ∧ endpoint_to_mcp eB ∈ svc10.list_tools) :=
  find_endpoint_first_match svc10 "a_b" [] [] [] eA eB rfl (by simp) rfl rfl

end McpPangolin
